import Mathlib

/-!
Shallow embedding of the notion-to-md rendering engine
(class BaseRendererPlugin) and of the MDX frontmatter YAML value
formatter (formatYamlValue), translated from the TypeScript source.

JavaScript Map objects are modelled as insertion-ordered association
lists (JsMap); JavaScript plain objects used as string dictionaries
(metadata, page properties, resolved template variables) are modelled
as association lists with first-match lookup; object spread is
modelled by mergeObj.  Fallible asynchronous code is modelled with
Except String: a thrown or rejected error becomes Except.error with
the error message.
-/

namespace NMD

/-- Metadata dictionaries (ContextMetadata): JS objects with string keys.
Values are abstracted to strings; the engine never inspects them. -/
def Metadata := List (String × String)

/-- Page properties mapping; the engine only carries it around, so the
property values are abstracted to strings. -/
def PageProperties := List (String × String)

/-- First-match association-list lookup, the model of reading a key off
a JS object or Map. -/
def mapLookup {α : Type} : List (String × α) → String → Option α
  | [], _ => none
  | (k', v) :: rest, k => if k' = k then some v else mapLookup rest k

/-- Replace the value stored under a key, keeping every entry in place;
the model of Map.set on a key that is already present. -/
def setEntries {α : Type} (l : List (String × α)) (k : String) (v : α) : List (String × α) :=
  l.map (fun p => if p.1 = k then (k, v) else p)

/-- A JS Map: entries in insertion order. -/
structure JsMap (α : Type) where
  entries : List (String × α)

/-- Map.get. -/
def JsMap.get {α : Type} (m : JsMap α) (k : String) : Option α :=
  mapLookup m.entries k

/-- Map.has. -/
def JsMap.has {α : Type} (m : JsMap α) (k : String) : Bool :=
  (mapLookup m.entries k).isSome

/-- Map.set: update in place when the key exists, append otherwise. -/
def JsMap.set {α : Type} (m : JsMap α) (k : String) (v : α) : JsMap α :=
  if (mapLookup m.entries k).isSome then ⟨setEntries m.entries k v⟩
  else ⟨m.entries ++ [(k, v)]⟩

/-- Does the association list hold the key anywhere. -/
def containsKey {α : Type} (l : List (String × α)) (k : String) : Bool :=
  (mapLookup l k).isSome

/-- JS object spread, as in the source expressions that merge metadata:
keys of the first object in their order, overridden by the values of
the second where the key collides, followed by the keys found only in
the second object. -/
def mergeObj (a b : Metadata) : Metadata :=
  a.map (fun p =>
    match mapLookup b p.1 with
    | some w => (p.1, w)
    | none => p)
  ++ b.filter (fun q => !containsKey a q.1)

/-- Does one character list start with another (exact character equality). -/
def listStartsWith : List Char → List Char → Bool
  | [], _ => true
  | _ :: _, [] => false
  | a :: as, b :: bs => if a = b then listStartsWith as bs else false

/-- Is the first character list a contiguous infix of the second. -/
def listIsInfix (needle : List Char) : List Char → Bool
  | [] => needle.isEmpty
  | c :: cs => listStartsWith needle (c :: cs) || listIsInfix needle cs

/-- The model of String.prototype.includes. -/
def strIncludes (s sub : String) : Bool :=
  listIsInfix sub.data s.data

/-- A character matched by the regex class for word characters:
ASCII letters, digits and underscore. -/
def isWordChar (c : Char) : Bool :=
  c.isAlphanum || c = '_'

/-- Try to match the template placeholder pattern (three opening braces,
one or more word characters, three closing braces) at the head of the
character list; on success return the inner identifier and the
characters after the match.  Mirrors how the JS regex engine matches
the placeholder pattern at one position. -/
def matchPlaceholder : List Char → Option (String × List Char)
  | '\x7b' :: '\x7b' :: '\x7b' :: rest =>
    let word := rest.takeWhile isWordChar
    let rest' := rest.dropWhile isWordChar
    if word.isEmpty then none
    else
      match rest' with
      | '\x7d' :: '\x7d' :: '\x7d' :: rest'' => some (String.mk word, rest'')
      | _ => none
  | _ => none

/-- All full placeholder matches of the template pattern in left-to-right
scan order, as produced by a global regex match: each element is the
full matched text including the brace delimiters.  Fuelled recursion;
the initial fuel is the input length, which the scan never exhausts. -/
def jsMatchAllAux : Nat → List Char → List String
  | _, [] => []
  | 0, _ => []
  | n + 1, c :: cs =>
    match matchPlaceholder (c :: cs) with
    | some (name, rest) => ("\x7b\x7b\x7b" ++ name ++ "\x7d\x7d\x7d") :: jsMatchAllAux n rest
    | none => jsMatchAllAux n cs

/-- The model of template.match with the global placeholder regex
(returning the empty list where JS returns null). -/
def jsMatchAll (s : String) : List String :=
  jsMatchAllAux s.data.length s.data

/-- Remove the first occurrence of either delimiter (three opening braces
or three closing braces): the model of the non-global
String.prototype.replace call in initializeTemplateVariables. -/
def replaceFirstDelimAux : List Char → List Char
  | [] => []
  | '\x7b' :: '\x7b' :: '\x7b' :: rest => rest
  | '\x7d' :: '\x7d' :: '\x7d' :: rest => rest
  | c :: rest => c :: replaceFirstDelimAux rest

/-- String form of replaceFirstDelimAux. -/
def replaceFirstDelim (s : String) : String :=
  String.mk (replaceFirstDelimAux s.data)

/-- One Notion rich-text span: its plain text, its link target (href,
null modelled as none) and its annotations record as an ordered list of
entries, each flag reduced to its JS truthiness. -/
structure RichTextItem where
  plain_text : String
  href : Option String
  annotations : List (String × Bool)

/-- The argument object handed to an annotation transformer's transform:
absent fields are none. -/
structure AnnotationInput where
  text : String
  annotations : Option (List (String × Bool))
  link : Option String
  metadata : Option Metadata

/-- An annotation transformer capability. -/
structure AnnotationTransformer where
  transform : AnnotationInput → Except String String

/-- A block of the input tree; the engine reads only its type tag, the
rest of the payload is consumed by collaborator transformers. -/
structure Block where
  type : String
  richText : List RichTextItem

/-- The transient per-block context handed to a block transformer's
transform: the engine context overlaid with the current block and the
merged metadata.  The transformer registries and utility closures of
the full context are not reproduced here, because reproducing them
would make the transformer type self-referential; the claims under
proof never read them. -/
structure BlockContext where
  pageId : String
  pageProperties : PageProperties
  metadata : Metadata
  block : Block
  blockTree : List Block
  variableData : JsMap (List String)

/-- A block transformer capability: transform plus the optional import
list (absent modelled as empty) and optional target variable. -/
structure BlockTransformer where
  transform : BlockContext → Except String String
  imports : List String
  targetVariable : Option String

/-- The context visible to a variable resolver (a shallow copy of the
engine context; the registries are elided as for BlockContext). -/
structure ResolverContext where
  pageId : String
  pageProperties : PageProperties
  metadata : Metadata
  variableData : JsMap (List String)

/-- A variable resolver. -/
def VariableResolver : Type :=
  String → ResolverContext → Except String String

/-- The default resolver: join the collected fragments with newlines. -/
def defaultResolver : VariableResolver :=
  fun variableName context =>
    .ok (String.intercalate ("\n") ((context.variableData.get variableName).getD []))

/-- The mutable state of a BaseRendererPlugin instance: the template,
the variable data collector, the resolver registry, the engine context
fields and the transformer registries. -/
structure RendererState where
  template : String
  collector : JsMap (List String)
  resolvers : JsMap VariableResolver
  pageId : String
  pageProperties : PageProperties
  metadata : Metadata
  blockTree : List Block
  blockTransformers : JsMap BlockTransformer
  annotationTransformers : JsMap AnnotationTransformer

/-- The input/output record of the processing chain. -/
structure ChainData where
  pageId : String
  blocks : List Block
  properties : PageProperties
  metadata : Metadata
  content : Option String

/-- addVariable: create an empty collector for the name if absent, and
register the resolver when one is supplied. -/
def addVariable (s : RendererState) (name : String) (resolver : Option VariableResolver) : RendererState :=
  let s1 := if s.collector.has name then s else { s with collector := s.collector.set name [] }
  match resolver with
  | some r => { s1 with resolvers := s1.resolvers.set name r }
  | none => s1

/-- The fold performed by addImports over the incoming values: append a
value only when it is not already present. -/
def foldImports (c : List String) (vs : List String) : List String :=
  vs.foldl (fun acc imp => if imp ∈ acc then acc else acc ++ [imp]) c

/-- addImports: read the imports collector (empty when missing),
append each new value once, and store the result back. -/
def addImports (s : RendererState) (imports : List String) : RendererState :=
  let importCollector := (s.collector.get ("imports")).getD []
  { s with collector := s.collector.set ("imports") (foldImports importCollector imports) }

/-- addToCollector: ensure the collector exists, then push the content. -/
def addToCollector (s : RendererState) (varName content : String) : RendererState :=
  let s1 := if s.collector.has varName then s else { s with collector := s.collector.set varName [] }
  { s1 with collector := s1.collector.set varName (((s1.collector.get varName).getD []) ++ [content]) }

/-- The required content placeholder text. -/
def contentPlaceholder : String := "\x7b\x7b\x7bcontent\x7d\x7d\x7d"

/-- The required imports placeholder text. -/
def importsPlaceholder : String := "\x7b\x7b\x7bimports\x7d\x7d\x7d"

/-- validateTemplate: throw unless both required placeholders occur,
checking content first as the source loop does. -/
def validateTemplate (template : String) : Except String Unit :=
  if strIncludes template contentPlaceholder then
    if strIncludes template importsPlaceholder then .ok ()
    else .error ("Template must contain imports variable")
  else .error ("Template must contain content variable")

/-- initializeTemplateVariables: collect every placeholder match of the
template, strip the first delimiter occurrence from each matched text
(the non-global replace of the source) and register the result as a
variable without a resolver. -/
def initializeTemplateVariables (s : RendererState) : RendererState :=
  (jsMatchAll s.template).foldl (fun st v => addVariable st (replaceFirstDelim v) none) s

/-- setTemplate: validate, store the template, then scan it for
variables. -/
def setTemplate (s : RendererState) (template : String) : Except String RendererState :=
  match validateTemplate template with
  | .error e => .error e
  | .ok _ => .ok (initializeTemplateVariables { s with template := template })

/-- initializeDefaultVariables: register the imports and content
variables with the default resolver. -/
def initializeDefaultVariables (s : RendererState) : RendererState :=
  addVariable (addVariable s ("imports") (some defaultResolver)) ("content") (some defaultResolver)

/-- The empty engine state a constructor starts from, holding the given
template field. -/
def emptyState (template : String) : RendererState :=
  { template := template, collector := ⟨[]⟩, resolvers := ⟨[]⟩, pageId := "",
    pageProperties := [], metadata := [], blockTree := [],
    blockTransformers := ⟨[]⟩, annotationTransformers := ⟨[]⟩ }

/-- The constructor of BaseRendererPlugin, applied to the template the
constructor body observes in the template field: initialize the default
variables, then validate and initialize the template (which repeats the
default-variable initialization, as the source does). -/
def construct (template : String) : Except String RendererState :=
  let s1 := initializeDefaultVariables (emptyState template)
  if template = "" then .error ("Template must be defined")
  else
    match validateTemplate template with
    | .error e => .error e
    | .ok _ => .ok (initializeTemplateVariables (initializeDefaultVariables s1))

/-- resetCollectors: read the imports collector, then set every existing
collector key to the preserved imports value for the imports key and to
the empty list for every other key. -/
def resetCollectors (s : RendererState) : RendererState :=
  let imports := (s.collector.get ("imports")).getD []
  { s with collector :=
      ⟨s.collector.entries.map (fun p =>
        if p.1 = "imports" then (p.1, imports) else (p.1, []))⟩ }

/-- updateContext: refresh the context fields from the incoming data,
merging the incoming metadata over the existing metadata. -/
def updateContext (s : RendererState) (data : ChainData) : RendererState :=
  { s with pageId := data.pageId, pageProperties := data.properties,
           blockTree := data.blocks,
           metadata := mergeObj s.metadata data.metadata }

/-- The resolver context built from the current state (the shallow copy
of the engine context passed to each resolver). -/
def mkResolverContext (s : RendererState) : ResolverContext :=
  { pageId := s.pageId, pageProperties := s.pageProperties,
    metadata := s.metadata, variableData := s.collector }

/-- Resolve every collector entry via its registered resolver or the
default resolver, producing the resolved-variables dictionary. -/
def resolveAll (s : RendererState) : List (String × List String) → Except String (List (String × String))
  | [] => .ok []
  | (name, _) :: rest =>
    match ((s.resolvers.get name).getD defaultResolver) name (mkResolverContext s) with
    | .error e => .error e
    | .ok v =>
      match resolveAll s rest with
      | .error e => .error e
      | .ok vs => .ok ((name, v) :: vs)

/-- Substitute every placeholder match with the resolved value of its
inner identifier (empty string when unresolved), scanning exactly as
the global regex replace does.  Fuelled recursion; the initial fuel is
the input length, which the scan never exhausts. -/
def substituteAux (resolved : List (String × String)) : Nat → List Char → List Char
  | _, [] => []
  | 0, cs => cs
  | n + 1, c :: cs =>
    match matchPlaceholder (c :: cs) with
    | some (name, rest) => ((mapLookup resolved name).getD ("")).data ++ substituteAux resolved n rest
    | none => c :: substituteAux resolved n cs

/-- String form of the template substitution pass. -/
def substitute (resolved : List (String × String)) (template : String) : String :=
  String.mk (substituteAux resolved template.data.length template.data)

/-- renderTemplate: resolve every variable, then perform the single
substitution pass over the template. -/
def renderTemplate (s : RendererState) : Except String String :=
  match resolveAll s s.collector.entries with
  | .error e => .error e
  | .ok resolved => .ok (substitute resolved s.template)

/-- The JS truthiness test applied to the span's href. -/
def hrefTruthy : Option String → Bool
  | none => false
  | some s => !s.isEmpty

/-- The per-block context built by processBlock. -/
def mkBlockContext (s : RendererState) (block : Block) (metadata : Option Metadata) : BlockContext :=
  { pageId := s.pageId, pageProperties := s.pageProperties,
    metadata := mergeObj s.metadata (metadata.getD []),
    block := block, blockTree := s.blockTree, variableData := s.collector }

/-- processBlock: skip (empty output, untouched state) when no
transformer is registered for the block's type; otherwise invoke the
transformer on the per-block context, wrap a raised error with the
fixed prefix, and on success merge the declared imports, ensure the
target collector exists and append the output to it. -/
def processBlock (s : RendererState) (block : Block) (metadata : Option Metadata) :
    Except String (RendererState × String) :=
  match s.blockTransformers.get block.type with
  | none => .ok (s, "")
  | some transformer =>
    match transformer.transform (mkBlockContext s block metadata) with
    | .error e => .error ("Failed to process block: " ++ e)
    | .ok output =>
      let s1 := if transformer.imports.isEmpty then s else addImports s transformer.imports
      let targetVariable :=
        match transformer.targetVariable with
        | some t => if t = "" then ("content") else t
        | none => ("content")
      let s2 := if s1.collector.has targetVariable then s1 else addVariable s1 targetVariable none
      .ok (addToCollector s2 targetVariable output, output)

/-- The sequential loop of process over the top-level blocks. -/
def processBlocks : RendererState → List Block → Except String RendererState
  | s, [] => .ok s
  | s, b :: rest =>
    match processBlock s b none with
    | .error e => .error e
    | .ok (s', _) => processBlocks s' rest

/-- process: refresh the context, reset the collectors, process every
top-level block, render the template and emit the updated record; any
error raised along the way is wrapped with the stage prefix. -/
def process (s : RendererState) (data : ChainData) :
    Except String (RendererState × ChainData) :=
  let s1 := updateContext s data
  let s2 := resetCollectors s1
  match processBlocks s2 data.blocks with
  | .error e => .error ("Renderer failed: " ++ e)
  | .ok s3 =>
    match renderTemplate s3 with
    | .error e => .error ("Renderer failed: " ++ e)
    | .ok content => .ok (s3, { data with content := some content })

/-- The cascade of processRichText over one span's annotation entries:
each entry whose flag is truthy and whose name has a registered
annotation transformer rewrites the running text. -/
def cascadeAnnotations (s : RendererState) (itemAnns : List (String × Bool))
    (md : Option Metadata) : List (String × Bool) → String → Except String String
  | [], text => .ok text
  | (name, value) :: rest, text =>
    match value, s.annotationTransformers.get name with
    | true, some tr =>
      match tr.transform { text := text, annotations := some itemAnns, link := none, metadata := md } with
      | .error e => .error e
      | .ok t => cascadeAnnotations s itemAnns md rest t
    | _, _ => cascadeAnnotations s itemAnns md rest text

/-- Process one rich-text span: run the annotation cascade, then, when
the href is truthy, apply the transformer registered under the link
name to the cascaded text; reading the transform member of a missing
link registration is the TypeError the runtime raises there. -/
def processRichTextItem (s : RendererState) (item : RichTextItem) (md : Option Metadata) :
    Except String String :=
  match cascadeAnnotations s item.annotations md item.annotations item.plain_text with
  | .error e => .error e
  | .ok text =>
    if hrefTruthy item.href then
      match s.annotationTransformers.get ("link") with
      | some tr => tr.transform { text := text, annotations := none, link := item.href, metadata := none }
      | none => .error ("TypeError: cannot read transform of undefined")
    else .ok text

/-- Process every span of a rich-text array, first rejection wins. -/
def processItems (s : RendererState) (md : Option Metadata) : List RichTextItem → Except String (List String)
  | [] => .ok []
  | item :: rest =>
    match processRichTextItem s item md with
    | .error e => .error e
    | .ok t =>
      match processItems s md rest with
      | .error e => .error e
      | .ok ts => .ok (t :: ts)

/-- processRichText: process every span and concatenate the outputs in
input order with no separator. -/
def processRichText (s : RendererState) (richText : List RichTextItem) (md : Option Metadata) :
    Except String String :=
  match processItems s md richText with
  | .error e => .error e
  | .ok results => .ok (String.join results)

/-- A JS value as far as formatYamlValue distinguishes values: an
array, a string, or another scalar. -/
inductive JsValue where
  | vstr : String → JsValue
  | vnum : Int → JsValue
  | vbool : Bool → JsValue
  | varr : List JsValue → JsValue

mutual

/-- JS default string conversion of a value, as the template literal
and String coercions of the source perform it. -/
def jsValueToString : JsValue → String
  | .vstr s => s
  | .vnum n => toString n
  | .vbool b => cond b ("true") ("false")
  | .varr xs => String.intercalate (",") (jsValueListToString xs)

/-- String conversion of each element of an array value. -/
def jsValueListToString : List JsValue → List String
  | [] => []
  | x :: xs => jsValueToString x :: jsValueListToString xs

end

/-- Backslash-escape every double quote, the global regex replace of the
string branch of formatYamlValue. -/
def escapeQuotesAux : List Char → List Char
  | [] => []
  | c :: cs => if c = '\"' then '\\' :: '\"' :: escapeQuotesAux cs else c :: escapeQuotesAux cs

/-- String form of the quote-escaping replace. -/
def escapeQuotes (s : String) : String :=
  String.mk (escapeQuotesAux s.data)

/-- formatYamlValue: an array becomes a bracketed, comma-space-joined
list of double-quoted element conversions with no escaping; a string is
double-quoted with its internal quotes escaped; any other value gets
the default string conversion. -/
def formatYamlValue : JsValue → String
  | .varr xs => "[" ++ String.intercalate (", ") ((jsValueListToString xs).map (fun t => "\"" ++ t ++ "\"")) ++ "]"
  | .vstr s => "\"" ++ escapeQuotes s ++ "\""
  | v => jsValueToString v

/-- Is the Except value an error. -/
def exceptIsError {α : Type} : Except String α → Bool
  | .error _ => true
  | .ok _ => false

/-- Is the Except value a success. -/
def exceptIsOk {α : Type} : Except String α → Bool
  | .error _ => false
  | .ok _ => true

/-! Concrete engine states, blocks and data used by the witness and
counterexample theorems. -/

/-- The default template of the base class. -/
def defaultTemplate : String := "\x7b\x7b\x7bimports\x7d\x7d\x7d\n\x7b\x7b\x7bcontent\x7d\x7d\x7d"

/-- A plain engine state: default template, the two mandatory empty
collectors, and no registered transformers or resolvers. -/
def wBase : RendererState :=
  { template := defaultTemplate, collector := ⟨[("imports", []), ("content", [])]⟩,
    resolvers := ⟨[]⟩, pageId := "", pageProperties := [], metadata := [],
    blockTree := [], blockTransformers := ⟨[]⟩, annotationTransformers := ⟨[]⟩ }

/-- A block transformer whose transform always raises with message boom. -/
def wFailTr : BlockTransformer := ⟨fun _ => .error ("boom"), [], none⟩

/-- A state with the failing transformer registered for paragraph blocks. -/
def wC1State : RendererState :=
  { wBase with blockTransformers := ⟨[("paragraph", wFailTr)]⟩ }

/-- A paragraph block. -/
def wC1Block : Block := ⟨"paragraph", []⟩

/-- Input data holding the single paragraph block. -/
def wC1Data : ChainData := ⟨"p1", [wC1Block], [], [], none⟩

/-- The message the failing process call rejects with. -/
def wC1Msg : String :=
  match process wC1State wC1Data with
  | .error e => e
  | .ok _ => ""

/-- A valid template with one extra placeholder named toc. -/
def wC2Template : String :=
  "\x7b\x7b\x7bcontent\x7d\x7d\x7d\x7b\x7b\x7bimports\x7d\x7d\x7d\x7b\x7b\x7btoc\x7d\x7d\x7d"

/-- The state produced by accepting that template. -/
def wC2State : RendererState :=
  match setTemplate wBase wC2Template with
  | .ok s => s
  | .error _ => wBase

/-- A state with non-empty imports and content collectors, for the
reset witness. -/
def wC3State : RendererState :=
  { wBase with collector := ⟨[("imports", ["keep"]), ("content", ["old"])]⟩ }

/-- A block of a type that has no registered transformer. -/
def wC5Block : Block := ⟨"divider", []⟩

/-- A bold annotation transformer. -/
def wBold : AnnotationTransformer := ⟨fun inp => .ok ("**" ++ inp.text ++ "**")⟩

/-- An italic annotation transformer. -/
def wItalic : AnnotationTransformer := ⟨fun inp => .ok ("_" ++ inp.text ++ "_")⟩

/-- A link annotation transformer. -/
def wLink : AnnotationTransformer :=
  ⟨fun inp => .ok ("[" ++ inp.text ++ "](" ++ (inp.link.getD ("")) ++ ")")⟩

/-- A state with bold, italic and link annotation transformers. -/
def wC6State : RendererState :=
  { wBase with annotationTransformers := ⟨[("bold", wBold), ("italic", wItalic), ("link", wLink)]⟩ }

/-- A span with bold then italic flags and a link. -/
def wC6Item : RichTextItem := ⟨"Hello", some ("u"), [("bold", true), ("italic", true)]⟩

/-- A state whose annotation registry lacks the link transformer. -/
def wC7State : RendererState :=
  { wBase with annotationTransformers := ⟨[("bold", wBold)]⟩ }

/-- Initial state of the repeated-process witness, with one metadata key. -/
def wC8S0 : RendererState := { wBase with metadata := [("a", "1")] }

/-- First input data of the repeated-process witness. -/
def wC8D1 : ChainData := ⟨"p1", [], [], [("b", "2")], none⟩

/-- Second input data, overwriting one key of the first. -/
def wC8D2 : ChainData := ⟨"p2", [], [], [("b", "3"), ("c", "4")], none⟩

/-- State after the first process call. -/
def wC8S1 : RendererState :=
  match process wC8S0 wC8D1 with
  | .ok (s, _) => s
  | .error _ => wC8S0

/-- Record returned by the first process call. -/
def wC8R1 : ChainData :=
  match process wC8S0 wC8D1 with
  | .ok (_, d) => d
  | .error _ => wC8D1

/-- State after the second process call. -/
def wC8S2 : RendererState :=
  match process wC8S1 wC8D2 with
  | .ok (s, _) => s
  | .error _ => wC8S1

/-- Record returned by the second process call. -/
def wC8R2 : ChainData :=
  match process wC8S1 wC8D2 with
  | .ok (_, d) => d
  | .error _ => wC8D2

/-! Helper lemmas about the association-list, map, merge and fold
operations of the embedding. -/

theorem mapLookup_append {α : Type} (l1 l2 : List (String × α)) (k : String) :
    mapLookup (l1 ++ l2) k =
      match mapLookup l1 k with
      | some v => some v
      | none => mapLookup l2 k := by
  induction l1 with
  | nil => rfl
  | cons p rest ih =>
    by_cases h : p.1 = k
    · simp [mapLookup, h]
    · simpa [mapLookup, h] using ih

theorem mapLookup_mapVal {α β : Type} (g : String → α → β) (l : List (String × α)) (k : String) :
    mapLookup (l.map (fun p => (p.1, g p.1 p.2))) k = (mapLookup l k).map (g k) := by
  induction l with
  | nil => rfl
  | cons p rest ih =>
    by_cases h : p.1 = k
    · subst h; simp [mapLookup]
    · simpa [mapLookup, h] using ih

theorem mapLookup_filterNot {α : Type} (a : List (String × α)) (b : List (String × α)) (k : String) :
    mapLookup (b.filter (fun q => !containsKey a q.1)) k =
      if containsKey a k then none else mapLookup b k := by
  induction b with
  | nil =>
    show (none : Option α) = if containsKey a k then none else none
    split <;> rfl
  | cons q rest ih =>
    by_cases hq : containsKey a q.1 = true
    · rw [List.filter_cons_of_neg (by simp [hq])]
      rw [ih]
      by_cases hck : containsKey a k = true
      · rw [if_pos hck, if_pos hck]
      · rw [if_neg hck, if_neg hck]
        have hqk : ¬ q.1 = k := fun h => hck (h ▸ hq)
        simp [mapLookup, hqk]
    · rw [List.filter_cons_of_pos (by simp [Bool.not_eq_true] at hq ⊢; exact hq)]
      by_cases hk : q.1 = k
      · have hck : ¬ containsKey a k = true := fun h => hq (hk ▸ h)
        rw [if_neg hck]
        simp [mapLookup, hk]
      · simp only [mapLookup, if_neg hk]
        exact ih

theorem mapLookup_mergeMap (b : Metadata) (a : Metadata) (k : String) :
    mapLookup (a.map (fun p => match mapLookup b p.1 with | some w => (p.1, w) | none => p)) k =
      match mapLookup a k with
      | none => none
      | some v =>
        match mapLookup b k with
        | some w => some w
        | none => some v := by
  induction a with
  | nil => rfl
  | cons p rest ih =>
    simp only [List.map_cons]
    by_cases hp : p.1 = k
    · subst hp
      cases hb : mapLookup b p.1 with
      | some w => simp [mapLookup, hb]
      | none => simp [mapLookup, hb]
    · cases hb : mapLookup b p.1 with
      | some w => simp [mapLookup, hb, hp, ih]
      | none => simp [mapLookup, hb, hp, ih]

theorem mapLookup_mergeObj (a b : Metadata) (k : String) :
    mapLookup (mergeObj a b) k =
      match mapLookup b k with
      | some w => some w
      | none => mapLookup a k := by
  unfold mergeObj
  rw [mapLookup_append, mapLookup_mergeMap b a k, mapLookup_filterNot a b k]
  cases ha : mapLookup a k with
  | some v => cases hb : mapLookup b k <;> simp
  | none =>
    have hc : containsKey a k = false := by
      unfold containsKey; rw [ha]; rfl
    cases hb : mapLookup b k <;> simp [hc]

theorem mapLookup_setEntries {α : Type} (l : List (String × α)) (k : String) (v : α) (k' : String) :
    mapLookup (setEntries l k v) k' =
      if k' = k then (mapLookup l k).map (fun _ => v) else mapLookup l k' := by
  induction l with
  | nil =>
    by_cases hk : k' = k
    · simp [setEntries, mapLookup, hk]
    · simp [setEntries, mapLookup, hk]
  | cons p rest ih =>
    simp only [setEntries, List.map_cons] at ih ⊢
    by_cases hp : p.1 = k
    · rw [if_pos hp]
      by_cases hk : k' = k
      · simp only [mapLookup, if_pos hk.symm, if_pos hk, if_pos hp]
        rfl
      · simp only [mapLookup, if_neg (fun h : k = k' => hk h.symm), if_neg hk]
        rw [ih, if_neg hk]
        rw [if_neg (fun h : p.1 = k' => hk (h ▸ hp ▸ rfl : k' = k))]
    · rw [if_neg hp]
      by_cases hpk : p.1 = k'
      · have hk : ¬ k' = k := fun h => hp (hpk.trans h)
        simp only [mapLookup, if_pos hpk, if_neg hk]
      · simp only [mapLookup, if_neg hpk]
        rw [ih]
        by_cases hk : k' = k
        · rw [if_pos hk, if_pos hk, if_neg (fun h : p.1 = k => hp h)]
        · rw [if_neg hk, if_neg hk]

theorem get_set {α : Type} (m : JsMap α) (k : String) (v : α) (k' : String) :
    (m.set k v).get k' = if k' = k then some v else m.get k' := by
  unfold JsMap.set JsMap.get
  by_cases hs : (mapLookup m.entries k).isSome = true
  · rw [if_pos hs]
    show mapLookup (setEntries m.entries k v) k' = _
    rw [mapLookup_setEntries]
    by_cases hk : k' = k
    · rw [if_pos hk, if_pos hk]
      cases hm : mapLookup m.entries k with
      | some w => rfl
      | none => rw [hm] at hs; simp at hs
    · rw [if_neg hk, if_neg hk]
  · rw [if_neg hs]
    show mapLookup (m.entries ++ [(k, v)]) k' = _
    rw [mapLookup_append]
    have hnone : mapLookup m.entries k = none := by
      cases hm : mapLookup m.entries k with
      | some w => rw [hm] at hs; simp at hs
      | none => rfl
    by_cases hk : k' = k
    · subst hk
      rw [hnone]
      simp [mapLookup]
    · cases hm : mapLookup m.entries k' with
      | some w => simp [hk]
      | none =>
        have : ¬ k = k' := fun h => hk h.symm
        simp [mapLookup, this, hk]

theorem setEntries_of_lookup_none {α : Type} (l : List (String × α)) (k : String) (v : α)
    (h : mapLookup l k = none) : setEntries l k v = l := by
  induction l with
  | nil => rfl
  | cons p rest ih =>
    unfold mapLookup at h
    by_cases hp : p.1 = k
    · rw [if_pos hp] at h; exact absurd h (by simp)
    · rw [if_neg hp] at h
      simp only [setEntries, List.map_cons, if_neg hp]
      rw [show List.map (fun p => if p.1 = k then (k, v) else p) rest = setEntries rest k v from rfl,
          ih h]

theorem setEntries_setEntries {α : Type} (l : List (String × α)) (k : String) (v : α) :
    setEntries (setEntries l k v) k v = setEntries l k v := by
  unfold setEntries
  rw [List.map_map]
  apply List.map_congr_left
  intro p _
  by_cases hp : p.1 = k
  · simp [hp]
  · simp [hp]

theorem set_def {α : Type} (m : JsMap α) (k : String) (v : α) :
    m.set k v =
      if (mapLookup m.entries k).isSome = true then JsMap.mk (setEntries m.entries k v)
      else JsMap.mk (m.entries ++ [(k, v)]) := rfl

theorem set_set {α : Type} (m : JsMap α) (k : String) (v : α) :
    (m.set k v).set k v = m.set k v := by
  have hget : mapLookup (m.set k v).entries k = some v := by
    have h := get_set m k v k
    rw [if_pos rfl] at h
    exact h
  rw [set_def (m.set k v) k v, hget]
  simp only [Option.isSome_some, if_true]
  by_cases hs : (mapLookup m.entries k).isSome = true
  · have hm : m.set k v = JsMap.mk (setEntries m.entries k v) := by
      rw [set_def, if_pos hs]
    rw [hm]
    show JsMap.mk (setEntries (setEntries m.entries k v) k v) = JsMap.mk (setEntries m.entries k v)
    rw [setEntries_setEntries]
  · have hnone : mapLookup m.entries k = none := by
      cases hm : mapLookup m.entries k with
      | some w => rw [hm] at hs; simp at hs
      | none => rfl
    have hm : m.set k v = JsMap.mk (m.entries ++ [(k, v)]) := by
      rw [set_def, if_neg hs]
    rw [hm]
    show JsMap.mk (setEntries (m.entries ++ [(k, v)]) k v) = JsMap.mk (m.entries ++ [(k, v)])
    unfold setEntries
    rw [List.map_append]
    rw [show List.map (fun p => if p.1 = k then (k, v) else p) m.entries = setEntries m.entries k v from rfl]
    rw [setEntries_of_lookup_none m.entries k v hnone]
    simp

theorem mem_foldImports_of_mem_init (c vs : List String) (x : String) (hx : x ∈ c) :
    x ∈ foldImports c vs := by
  induction vs generalizing c with
  | nil => exact hx
  | cons v rest ih =>
    show x ∈ foldImports (if v ∈ c then c else c ++ [v]) rest
    apply ih
    by_cases hv : v ∈ c
    · rw [if_pos hv]; exact hx
    · rw [if_neg hv]; exact List.mem_append_left _ hx

theorem mem_foldImports_of_mem_arg (c vs : List String) (x : String) (hx : x ∈ vs) :
    x ∈ foldImports c vs := by
  induction vs generalizing c with
  | nil => cases hx
  | cons v rest ih =>
    show x ∈ foldImports (if v ∈ c then c else c ++ [v]) rest
    cases hx with
    | head =>
      apply mem_foldImports_of_mem_init
      by_cases hv : x ∈ c
      · rw [if_pos hv]; exact hv
      · rw [if_neg hv]; exact List.mem_append_right _ (List.mem_singleton.mpr rfl)
    | tail _ hrest => exact ih _ hrest

theorem foldImports_of_subset (c vs : List String) (h : ∀ v ∈ vs, v ∈ c) :
    foldImports c vs = c := by
  induction vs with
  | nil => rfl
  | cons v rest ih =>
    show foldImports (if v ∈ c then c else c ++ [v]) rest = c
    rw [if_pos (h v (List.mem_cons_self v rest))]
    exact ih (fun w hw => h w (List.mem_cons_of_mem v hw))

theorem nodup_foldImports (c vs : List String) (h : c.Nodup) :
    (foldImports c vs).Nodup := by
  induction vs generalizing c with
  | nil => exact h
  | cons v rest ih =>
    show (foldImports (if v ∈ c then c else c ++ [v]) rest).Nodup
    apply ih
    by_cases hv : v ∈ c
    · rw [if_pos hv]; exact h
    · rw [if_neg hv]
      rw [List.nodup_append]
      refine ⟨h, List.nodup_singleton v, ?_⟩
      intro a ha hav
      rw [List.mem_singleton] at hav
      exact hv (hav ▸ ha)

theorem listStartsWith_refl (l : List Char) : listStartsWith l l = true := by
  induction l with
  | nil => rfl
  | cons c cs ih => simpa [listStartsWith] using ih

theorem listIsInfix_suffix (a e : List Char) : listIsInfix e (a ++ e) = true := by
  induction a with
  | nil =>
    cases e with
    | nil => rfl
    | cons c cs =>
      show (listStartsWith (c :: cs) (c :: cs) || listIsInfix (c :: cs) cs) = true
      rw [listStartsWith_refl]
      rfl
  | cons x xs ih =>
    show (listStartsWith e (x :: (xs ++ e)) || listIsInfix e (xs ++ e)) = true
    rw [ih, Bool.or_true]

theorem strIncludes_append (a e : String) : strIncludes (a ++ e) e = true := by
  unfold strIncludes
  rw [String.data_append]
  exact listIsInfix_suffix a.data e.data

theorem addVariable_metadata (s : RendererState) (n : String) (r : Option VariableResolver) :
    (addVariable s n r).metadata = s.metadata := by
  unfold addVariable
  cases r with
  | none => dsimp only; split <;> rfl
  | some r => dsimp only; split <;> rfl

theorem addImports_metadata (s : RendererState) (l : List String) :
    (addImports s l).metadata = s.metadata := rfl

theorem addToCollector_metadata (s : RendererState) (n c : String) :
    (addToCollector s n c).metadata = s.metadata := by
  unfold addToCollector
  dsimp only
  split <;> rfl

theorem processBlock_metadata (s s' : RendererState) (b : Block) (md : Option Metadata) (out : String)
    (h : processBlock s b md = .ok (s', out)) : s'.metadata = s.metadata := by
  unfold processBlock at h
  split at h
  · simp only [Except.ok.injEq, Prod.mk.injEq] at h
    rw [← h.1]
  · split at h
    · cases h
    · simp only [Except.ok.injEq, Prod.mk.injEq] at h
      rw [← h.1]
      rw [addToCollector_metadata]
      have h2 : ∀ (s1 : RendererState) (tv : String),
          ((if s1.collector.has tv then s1 else addVariable s1 tv none)).metadata = s1.metadata := by
        intro s1 tv
        split
        · rfl
        · rw [addVariable_metadata]
      rw [h2]
      split
      · rfl
      · rw [addImports_metadata]

theorem processBlocks_metadata (blocks : List Block) (s s' : RendererState)
    (h : processBlocks s blocks = .ok s') : s'.metadata = s.metadata := by
  induction blocks generalizing s with
  | nil =>
    unfold processBlocks at h
    simp only [Except.ok.injEq] at h
    rw [← h]
  | cons b rest ih =>
    unfold processBlocks at h
    split at h
    · cases h
    · rename_i s1 out heq
      rw [ih s1 h]
      exact processBlock_metadata s s1 b none out heq

theorem resetCollectors_metadata (s : RendererState) :
    (resetCollectors s).metadata = s.metadata := rfl

theorem updateContext_metadata (s : RendererState) (d : ChainData) :
    (updateContext s d).metadata = mergeObj s.metadata d.metadata := rfl

theorem process_ok_metadata (s s' : RendererState) (d : ChainData) (r : ChainData)
    (h : process s d = .ok (s', r)) : s'.metadata = mergeObj s.metadata d.metadata := by
  unfold process at h
  dsimp only at h
  split at h
  · cases h
  · rename_i s3 hb
    split at h
    · cases h
    · simp only [Except.ok.injEq, Prod.mk.injEq] at h
      rw [← h.1]
      rw [processBlocks_metadata d.blocks _ s3 hb]
      rfl

theorem resolveAll_ok_of_no_resolvers (s : RendererState) (h : s.resolvers.entries = []) :
    ∀ l : List (String × List String), ∃ vs, resolveAll s l = .ok vs := by
  intro l
  induction l with
  | nil => exact ⟨[], rfl⟩
  | cons p rest ih =>
    obtain ⟨name, vals⟩ := p
    obtain ⟨vs, hvs⟩ := ih
    have hres : s.resolvers.get name = none := by
      unfold JsMap.get
      rw [h]
      rfl
    refine ⟨(name, String.intercalate ("\n") ((s.collector.get name).getD [])) :: vs, ?_⟩
    unfold resolveAll
    rw [hres, hvs]
    rfl

theorem processItems_error (s : RendererState) (md : Option Metadata)
    (l : List RichTextItem) (item : RichTextItem) (hmem : item ∈ l)
    (herr : ∃ e, processRichTextItem s item md = .error e) :
    ∃ e, processItems s md l = .error e := by
  induction l with
  | nil => cases hmem
  | cons x rest ih =>
    unfold processItems
    cases hx : processRichTextItem s x md with
    | error e => exact ⟨e, rfl⟩
    | ok t =>
      cases hmem with
      | head =>
        obtain ⟨e, he⟩ := herr
        rw [hx] at he
        cases he
      | tail _ hrest =>
        obtain ⟨e, he⟩ := ih hrest
        rw [he]
        exact ⟨e, rfl⟩

theorem processRichTextItem_error_of_missing_link (s : RendererState) (item : RichTextItem)
    (md : Option Metadata) (hhref : hrefTruthy item.href = true)
    (hlink : s.annotationTransformers.get ("link") = none) :
    ∃ e, processRichTextItem s item md = .error e := by
  unfold processRichTextItem
  cases hc : cascadeAnnotations s item.annotations md item.annotations item.plain_text with
  | error e => exact ⟨e, rfl⟩
  | ok text =>
    rw [hhref]
    rw [hlink]
    exact ⟨"TypeError: cannot read transform of undefined", rfl⟩

theorem get_resetCollectors (s : RendererState) (k : String) :
    (resetCollectors s).collector.get k =
      (s.collector.get k).map
        (fun _ => if k = "imports" then (s.collector.get ("imports")).getD [] else []) := by
  unfold resetCollectors
  dsimp only
  show mapLookup
      (s.collector.entries.map (fun p =>
        if p.1 = "imports" then (p.1, (s.collector.get ("imports")).getD []) else (p.1, []))) k = _
  have hfun : s.collector.entries.map (fun p =>
        if p.1 = "imports" then (p.1, (s.collector.get ("imports")).getD []) else (p.1, ([] : List String)))
      = s.collector.entries.map (fun p =>
        (p.1, if p.1 = "imports" then (s.collector.get ("imports")).getD [] else [])) := by
    apply List.map_congr_left
    intro p _
    split <;> rfl
  rw [hfun]
  exact mapLookup_mapVal
    (fun k _ => if k = "imports" then (s.collector.get ("imports")).getD [] else []) s.collector.entries k

theorem join_singleton (t : String) : String.join [t] = t := by
  show ("" ++ t) = t
  cases t with
  | mk l => rfl

/-! The claim theorems. -/

/-- Claim C1, counterexample: with a paragraph-typed block whose
transformer raises boom, the enclosing process call rejects with a
message that contains the original error text boom but does not
contain the failing block's type paragraph, refuting the stated
message content at this concrete input. -/
theorem C1_counterexample :
    exceptIsError (process wC1State wC1Data) = true
    ∧ wC1Msg = "Renderer failed: Failed to process block: boom"
    ∧ strIncludes wC1Msg ("boom") = true
    ∧ strIncludes wC1Msg ("paragraph") = false := by
  refine ⟨by decide, by decide, by decide, by decide⟩

/-- Claim C1, amended: when a block transformer's transform raises, the
error is re-raised wrapped with the fixed stage prefixes of processBlock
and process (not with the block's type tag); the enclosing process call
rejects with a message containing the original error text, and no
result record is produced because the error constructor carries only
the message. -/
theorem C1_error_wrapping (s : RendererState) (b : Block) (md : Option Metadata)
    (tr : BlockTransformer) (e : String) (s0 : RendererState) (d : ChainData)
    (h1 : s.blockTransformers.get b.type = some tr)
    (h2 : tr.transform (mkBlockContext s b md) = .error e)
    (h3 : processBlocks (resetCollectors (updateContext s0 d)) d.blocks =
      .error ("Failed to process block: " ++ e)) :
    processBlock s b md = .error ("Failed to process block: " ++ e)
    ∧ process s0 d = .error ("Renderer failed: " ++ ("Failed to process block: " ++ e))
    ∧ strIncludes ("Renderer failed: " ++ ("Failed to process block: " ++ e)) e = true := by
  refine ⟨?_, ?_, ?_⟩
  · simp only [processBlock, h1, h2]
  · unfold process
    dsimp only
    rw [h3]
  · rw [show ("Renderer failed: " ++ ("Failed to process block: " ++ e))
        = ("Renderer failed: " ++ "Failed to process block: ") ++ e from
      (String.append_assoc _ _ _).symm]
    exact strIncludes_append _ e

/-- Witness for the amended claim C1 at the concrete failing input. -/
theorem C1_error_wrapping_witness :
    processBlock wC1State wC1Block none = .error ("Failed to process block: " ++ "boom")
    ∧ process wC1State wC1Data = .error ("Renderer failed: " ++ ("Failed to process block: " ++ "boom"))
    ∧ strIncludes ("Renderer failed: " ++ ("Failed to process block: " ++ "boom")) ("boom") = true :=
  C1_error_wrapping wC1State wC1Block none wFailTr ("boom") wC1State wC1Data rfl rfl rfl

/-- Claim C2, code bug evaluated: setTemplate accepts a valid template
holding an extra placeholder named toc, but registers a collector under
the mangled name consisting of toc followed by three closing braces,
and never registers the identifier toc itself, because the non-global
replace strips only the leading brace delimiter of each match. -/
theorem C2_template_scan_bug :
    exceptIsOk (setTemplate wBase wC2Template) = true
    ∧ wC2State.collector.has ("toc\x7d\x7d\x7d") = true
    ∧ wC2State.collector.has ("toc") = false := by
  refine ⟨by decide, by decide, by decide⟩

/-- Claim C3: resetting the collectors leaves the imports collector at
its pre-reset value, empties every other existing collector, and the
reset performed at the start of a process invocation (after the
context refresh, which does not touch collectors) preserves the
imports collector of the pre-invocation state. -/
theorem C3_reset_preserves_imports (s : RendererState) (k : String) (d : ChainData) :
    (resetCollectors s).collector.get ("imports") = s.collector.get ("imports")
    ∧ (k ≠ "imports" →
        (resetCollectors s).collector.get k = (s.collector.get k).map (fun _ => []))
    ∧ (resetCollectors (updateContext s d)).collector.get ("imports") = s.collector.get ("imports") := by
  have h1 : ∀ t : RendererState,
      (resetCollectors t).collector.get ("imports") = t.collector.get ("imports") := by
    intro t
    rw [get_resetCollectors]
    cases hg : t.collector.get ("imports") with
    | none => rfl
    | some v => simp [hg]
  refine ⟨h1 s, ?_, (h1 (updateContext s d)).trans rfl⟩
  intro hk
  rw [get_resetCollectors]
  cases hg : s.collector.get k with
  | none => rfl
  | some v => simp [hk]

/-- Witness for C3 at a state with non-empty collectors. -/
theorem C3_witness :
    (resetCollectors wC3State).collector.get ("imports") = wC3State.collector.get ("imports")
    ∧ (resetCollectors wC3State).collector.get ("content") = some [] := by
  have h := C3_reset_preserves_imports wC3State ("content") wC1Data
  refine ⟨h.1, ?_⟩
  rw [h.2.1 (by decide)]
  decide

/-- Claim C4: a template that misses either required placeholder is
rejected by setTemplate (and by construction) with a synchronously
raised error, before any block is processed; a template containing both
is accepted; and rendering never performs this validation, since
renderTemplate succeeds on any state whose resolvers are the default
ones, whatever its template. -/
theorem C4_template_validation (t : String) (s : RendererState) :
    ((strIncludes t contentPlaceholder = false ∨ strIncludes t importsPlaceholder = false) →
      ∃ e, setTemplate s t = .error e)
    ∧ (strIncludes t contentPlaceholder = true → strIncludes t importsPlaceholder = true →
      ∃ s', setTemplate s t = .ok s')
    ∧ ((strIncludes t contentPlaceholder = false ∨ strIncludes t importsPlaceholder = false) →
      ∃ e, construct t = .error e)
    ∧ (s.resolvers.entries = [] → ∃ out, renderTemplate s = .ok out) := by
  have hval : (strIncludes t contentPlaceholder = false ∨ strIncludes t importsPlaceholder = false) →
      ∃ e, validateTemplate t = .error e := by
    intro h
    unfold validateTemplate
    cases h with
    | inl hc => rw [hc]; exact ⟨"Template must contain content variable", rfl⟩
    | inr hi =>
      cases hc : strIncludes t contentPlaceholder with
      | false => exact ⟨"Template must contain content variable", rfl⟩
      | true => rw [hi]; exact ⟨"Template must contain imports variable", rfl⟩
  refine ⟨?_, ?_, ?_, ?_⟩
  · intro h
    obtain ⟨e, he⟩ := hval h
    refine ⟨e, ?_⟩
    unfold setTemplate
    rw [he]
  · intro hc hi
    refine ⟨initializeTemplateVariables { s with template := t }, ?_⟩
    unfold setTemplate validateTemplate
    rw [hc, hi]
    rfl
  · intro h
    unfold construct
    by_cases ht : t = ""
    · rw [if_pos ht]
      exact ⟨"Template must be defined", rfl⟩
    · rw [if_neg ht]
      obtain ⟨e, he⟩ := hval h
      rw [he]
      exact ⟨e, rfl⟩
  · intro h
    obtain ⟨vs, hvs⟩ := resolveAll_ok_of_no_resolvers s h s.collector.entries
    refine ⟨substitute vs s.template, ?_⟩
    unfold renderTemplate
    rw [hvs]

/-- Witness for C4: a template without placeholders is rejected by
setTemplate and by construction, the valid template with both
placeholders is accepted, and rendering succeeds on the base state. -/
theorem C4_witness :
    (∃ e, setTemplate wBase ("plain") = .error e)
    ∧ (∃ s', setTemplate wBase wC2Template = .ok s')
    ∧ (∃ e, construct ("plain") = .error e)
    ∧ (∃ out, renderTemplate wBase = .ok out) :=
  ⟨(C4_template_validation ("plain") wBase).1 (Or.inl (by decide)),
   (C4_template_validation wC2Template wBase).2.1 (by decide) (by decide),
   (C4_template_validation ("plain") wBase).2.2.1 (Or.inl (by decide)),
   (C4_template_validation defaultTemplate wBase).2.2.2 rfl⟩

/-- Claim C5: a block whose type has no registered transformer makes
processBlock return the empty string with the state unchanged, so no
collector is written, no import is added, and no error is raised. -/
theorem C5_unmapped_block_skips (s : RendererState) (b : Block) (md : Option Metadata)
    (h : s.blockTransformers.get b.type = none) :
    processBlock s b md = .ok (s, "") := by
  unfold processBlock
  rw [h]

/-- Witness for C5 on a divider block with an empty registry. -/
theorem C5_witness : processBlock wBase wC5Block none = .ok (wBase, "") :=
  C5_unmapped_block_skips wBase wC5Block none rfl

/-- Claim C6: for a span with bold then italic flags and a link, the
annotation cascade applies bold then italic in flag order, and the
transformer registered under the reserved name link is applied last,
so the span output is the link transform of the italic transform of
the bold transform of the plain text. -/
theorem C6_link_applied_last (s : RendererState) (item : RichTextItem) (md : Option Metadata)
    (tb ti tl : AnnotationTransformer) (url t1 t2 t3 : String)
    (hann : item.annotations = [("bold", true), ("italic", true)])
    (hhref : item.href = some url) (hurl : url.isEmpty = false)
    (hgb : s.annotationTransformers.get ("bold") = some tb)
    (hgi : s.annotationTransformers.get ("italic") = some ti)
    (hgl : s.annotationTransformers.get ("link") = some tl)
    (hb : tb.transform
      { text := item.plain_text, annotations := some item.annotations,
        link := none, metadata := md } = .ok t1)
    (hi : ti.transform
      { text := t1, annotations := some item.annotations,
        link := none, metadata := md } = .ok t2)
    (hl : tl.transform
      { text := t2, annotations := none, link := some url, metadata := none } = .ok t3) :
    processRichTextItem s item md = .ok t3
    ∧ processRichText s [item] md = .ok t3 := by
  have hcascade : cascadeAnnotations s item.annotations md item.annotations item.plain_text
      = .ok t2 := by
    rw [hann] at hb hi ⊢
    simp only [cascadeAnnotations, hgb, hb, hgi, hi]
  have hitem : processRichTextItem s item md = .ok t3 := by
    unfold processRichTextItem
    rw [hcascade]
    dsimp only
    rw [hhref]
    simp only [hrefTruthy, hurl, Bool.not_false, if_true, hgl]
    exact hl
  refine ⟨hitem, ?_⟩
  unfold processRichText processItems
  rw [hitem]
  show Except.ok (String.join [t3]) = Except.ok t3
  rw [join_singleton]

/-- Witness for C6 with markdown-style transformers on the text Hello. -/
theorem C6_witness :
    processRichTextItem wC6State wC6Item none = .ok ("[_**Hello**_](u)")
    ∧ processRichText wC6State [wC6Item] none = .ok ("[_**Hello**_](u)") :=
  C6_link_applied_last wC6State wC6Item none wBold wItalic wLink
    ("u") ("**Hello**") ("_**Hello**_") ("[_**Hello**_](u)")
    rfl rfl rfl rfl rfl rfl rfl rfl rfl

/-- Claim C7: a span carrying a link, processed in a state whose
annotation registry has no transformer under the reserved name link,
makes processRichText raise an error rather than silently emitting the
span. -/
theorem C7_missing_link_transformer_fatal (s : RendererState) (items : List RichTextItem)
    (item : RichTextItem) (md : Option Metadata)
    (hmem : item ∈ items) (hhref : hrefTruthy item.href = true)
    (hlink : s.annotationTransformers.get ("link") = none) :
    ∃ e, processRichText s items md = .error e := by
  obtain ⟨e, he⟩ := processItems_error s md items item hmem
    (processRichTextItem_error_of_missing_link s item md hhref hlink)
  refine ⟨e, ?_⟩
  unfold processRichText
  rw [he]

/-- Witness for C7: a linked span in a registry without link. -/
theorem C7_witness : ∃ e, processRichText wC7State [wC6Item] none = .error e :=
  C7_missing_link_transformer_fatal wC7State [wC6Item] wC6Item none
    (List.mem_singleton.mpr rfl) rfl rfl

/-- Claim C8: after two successive successful process calls on the same
engine, the second call's context metadata is the first call's metadata
overlaid by the second call's incoming metadata: a key of the incoming
metadata takes its incoming value, and a key set only before is
retained. -/
theorem C8_metadata_overlay (s0 s1 s2 : RendererState) (d1 d2 r1 r2 : ChainData) (k : String)
    (h1 : process s0 d1 = .ok (s1, r1)) (h2 : process s1 d2 = .ok (s2, r2)) :
    mapLookup s2.metadata k =
      match mapLookup d2.metadata k with
      | some v => some v
      | none => mapLookup s1.metadata k := by
  rw [process_ok_metadata s1 s2 d2 r2 h2]
  exact mapLookup_mergeObj s1.metadata d2.metadata k

/-- Witness for C8 over two concrete process calls. -/
theorem C8_witness :
    mapLookup wC8S2.metadata ("b") =
      match mapLookup wC8D2.metadata ("b") with
      | some v => some v
      | none => mapLookup wC8S1.metadata ("b") :=
  C8_metadata_overlay wC8S0 wC8S1 wC8S2 wC8D1 wC8D2 wC8R1 wC8R2 ("b") rfl rfl

/-- Claim C9: addImports appends a value only when absent, so repeating
the same call leaves the whole state unchanged, and the imports
collector stays duplicate-free whenever it started duplicate-free. -/
theorem C9_addImports_idempotent (s : RendererState) (vs : List String) :
    addImports (addImports s vs) vs = addImports s vs
    ∧ (((s.collector.get ("imports")).getD []).Nodup →
        (((addImports s vs).collector.get ("imports")).getD []).Nodup) := by
  constructor
  · unfold addImports
    dsimp only
    rw [show ((s.collector.set ("imports") (foldImports ((s.collector.get ("imports")).getD []) vs)).get
          ("imports")).getD []
        = foldImports ((s.collector.get ("imports")).getD []) vs from by
      rw [get_set]
      rw [if_pos rfl]
      rfl]
    rw [foldImports_of_subset _ vs
      (fun v hv => mem_foldImports_of_mem_arg ((s.collector.get ("imports")).getD []) vs v hv)]
    rw [set_set]
  · intro hnodup
    unfold addImports
    dsimp only
    rw [get_set]
    rw [if_pos rfl]
    exact nodup_foldImports _ vs hnodup

/-- Witness for C9 on a duplicate-carrying argument list. -/
theorem C9_witness :
    addImports (addImports wC3State ["a", "b", "a"]) ["a", "b", "a"]
      = addImports wC3State ["a", "b", "a"]
    ∧ (((addImports wC3State ["a", "b", "a"]).collector.get ("imports")).getD []).Nodup :=
  ⟨(C9_addImports_idempotent wC3State ["a", "b", "a"]).1,
   (C9_addImports_idempotent wC3State ["a", "b", "a"]).2 (by decide)⟩

/-- Claim C10: formatYamlValue escapes internal double quotes only for
a top-level string input: the array branch quotes each element without
escaping, so an element holding a double quote is embedded verbatim,
while the same text passed as a string has the quote backslash-escaped. -/
theorem C10_yaml_quote_escaping :
    formatYamlValue (.varr [.vstr ("a\"b")]) = "[\"a\"b\"]"
    ∧ formatYamlValue (.vstr ("a\"b")) = "\"a\\\"b\"" := by
  constructor <;> rfl

end NMD
